import Mathlib

/-!
Verification of the `Paperwrite.RocketRouter` routing core (file
`src/Paperwrite/RocketRouter.py`) against its natural-language specification.

The embedding models:
* the regular-expression fragment that `RocketRouter.Mount` generates
  (character classes, `\d`, `.`, `?`, `+`, `*`, counted repetition, `|`,
  ordinary characters) as a syntax tree `Rexp` with a Brzozowski-derivative
  matcher; `re.match` (anchored at the start only) is `matchFrom`, and the
  fully anchored matching described by the spec is `fullAccept`;
* the pattern source string built by `Mount` ( `"/".join(modules)` after
  variable substitution) and the parse of that string into `Rexp`
  (`re_compile`), mirroring how `re.compile` interprets it;
* the router state (`routes` dictionary, keyed by the compiled pattern;
  CPython's `re` compile cache makes equal pattern sources hit the same
  dictionary key, so the model keys by the pattern source string);
* `Mount` and `Match` as state-passing functions; Python exceptions
  (`ValueError` from tuple unpacking and `int()` coercion, `IndexError`,
  `NotSupportedError`) are explicit `PyExn` values.
-/

namespace Paperwrite

/-- An item of a regex character class `[...]`: a single character or a range. -/
inductive ClsItem where
  | single (c : Char)
  | range (lo hi : Char)
deriving DecidableEq

/-- Syntax of the regex fragment generated by `RocketRouter.Mount`:
ordinary characters, `.` (any char except newline), `\d`, character
classes, alternation, concatenation and Kleene star (into which `?`, `+`
and counted repetition are elaborated). -/
inductive Rexp where
  | nul
  | eps
  | chr (c : Char)
  | any
  | digit
  | cls (items : List ClsItem)
  | alt (a b : Rexp)
  | cat (a b : Rexp)
  | star (a : Rexp)
deriving DecidableEq

/-- Membership of a character in one class item. -/
def ClsItem.mem (c : Char) : ClsItem → Bool
  | .single d => c = d
  | .range lo hi => lo ≤ c && c ≤ hi

/-- Membership of a character in a character class. -/
def clsMem (items : List ClsItem) (c : Char) : Bool :=
  items.any (ClsItem.mem c)

/-- ASCII decimal digit, the `\d` class of the generated patterns
(the source's patterns only ever meet ASCII route characters). -/
def isPyDigit (c : Char) : Bool :=
  '0' ≤ c && c ≤ '9'

/-- Does the regex accept the empty word? -/
def nullable : Rexp → Bool
  | .nul => false
  | .eps => true
  | .chr _ => false
  | .any => false
  | .digit => false
  | .cls _ => false
  | .alt a b => nullable a || nullable b
  | .cat a b => nullable a && nullable b
  | .star _ => true

/-- Brzozowski derivative of a regex by one character.  `.` matches any
character except a newline, as in Python `re` without `DOTALL`. -/
def deriv (r : Rexp) (c : Char) : Rexp :=
  match r with
  | .nul => .nul
  | .eps => .nul
  | .chr d => if c = d then .eps else .nul
  | .any => if c = '\n' then .nul else .eps
  | .digit => if isPyDigit c then .eps else .nul
  | .cls items => if clsMem items c then .eps else .nul
  | .alt a b => .alt (deriv a c) (deriv b c)
  | .cat a b => if nullable a then .alt (.cat (deriv a c) b) (deriv b c) else .cat (deriv a c) b
  | .star a => .cat (deriv a c) (.star a)

/-- `re.match` semantics at the list level: does the regex match some
prefix of the word?  (Anchored at the start, not at the end.) -/
def matchFrom (r : Rexp) : List Char → Bool
  | [] => nullable r
  | c :: rest => nullable r || matchFrom (deriv r c) rest

/-- Fully anchored acceptance: does the regex match the entire word?
This is the matching discipline the specification describes
("anchored start and end", `re.fullmatch`). -/
def fullAccept (r : Rexp) (l : List Char) : Bool :=
  nullable (l.foldl deriv r)

/-- Word membership in the language of a regex. -/
inductive RMem : Rexp → List Char → Prop where
  | eps : RMem .eps []
  | chr (c : Char) : RMem (.chr c) [c]
  | any (c : Char) (h : c ≠ '\n') : RMem .any [c]
  | digit (c : Char) (h : isPyDigit c = true) : RMem .digit [c]
  | cls (items : List ClsItem) (c : Char) (h : clsMem items c = true) : RMem (.cls items) [c]
  | altL {a b : Rexp} {l : List Char} (h : RMem a l) : RMem (.alt a b) l
  | altR {a b : Rexp} {l : List Char} (h : RMem b l) : RMem (.alt a b) l
  | cat {a b : Rexp} {l1 l2 : List Char} (h1 : RMem a l1) (h2 : RMem b l2) :
      RMem (.cat a b) (l1 ++ l2)
  | starNil {a : Rexp} : RMem (.star a) []
  | starCons {a : Rexp} {l1 l2 : List Char} (h1 : RMem a l1) (h2 : RMem (.star a) l2) :
      RMem (.star a) (l1 ++ l2)

theorem RMem_cat_inv {a b : Rexp} {l : List Char} (h : RMem (.cat a b) l) :
    ∃ l1 l2, l = l1 ++ l2 ∧ RMem a l1 ∧ RMem b l2 := by
  cases h with
  | cat h1 h2 => exact ⟨_, _, rfl, h1, h2⟩

theorem nullable_iff (r : Rexp) : nullable r = true ↔ RMem r [] := by
  induction r with
  | nul => simp [nullable]; intro h; cases h
  | eps => simp [nullable]; exact .eps
  | chr c => simp [nullable]; intro h; cases h
  | any => simp [nullable]; intro h; cases h
  | digit => simp [nullable]; intro h; cases h
  | cls items => simp [nullable]; intro h; cases h
  | alt a b iha ihb =>
      simp only [nullable, Bool.or_eq_true, iha, ihb]
      constructor
      · rintro (h | h)
        · exact .altL h
        · exact .altR h
      · intro h; cases h with
        | altL h => exact Or.inl h
        | altR h => exact Or.inr h
  | cat a b iha ihb =>
      simp only [nullable, Bool.and_eq_true, iha, ihb]
      constructor
      · rintro ⟨h1, h2⟩
        exact RMem.cat h1 h2
      · intro h
        obtain ⟨l1, l2, hl, h1, h2⟩ := RMem_cat_inv h
        obtain ⟨rfl, rfl⟩ := List.append_eq_nil.mp hl.symm
        exact ⟨h1, h2⟩
  | star a iha =>
      simp [nullable]
      exact .starNil

theorem deriv_sound {r : Rexp} {c : Char} {l : List Char}
    (h : RMem (deriv r c) l) : RMem r (c :: l) := by
  induction r generalizing l with
  | nul => cases h
  | eps => cases h
  | chr d =>
      by_cases hc : c = d
      · simp only [deriv, if_pos hc] at h
        cases h
        exact hc ▸ RMem.chr d
      · simp only [deriv, if_neg hc] at h
        cases h
  | any =>
      by_cases hc : c = '\n'
      · simp only [deriv, if_pos hc] at h
        cases h
      · simp only [deriv, if_neg hc] at h
        cases h
        exact RMem.any c hc
  | digit =>
      by_cases hc : isPyDigit c = true
      · simp only [deriv, if_pos hc] at h
        cases h
        exact RMem.digit c hc
      · simp only [deriv, if_neg hc] at h
        cases h
  | cls items =>
      by_cases hc : clsMem items c = true
      · simp only [deriv, if_pos hc] at h
        cases h
        exact RMem.cls items c hc
      · simp only [deriv, if_neg hc] at h
        cases h
  | alt a b iha ihb =>
      cases h with
      | altL h => exact .altL (iha h)
      | altR h => exact .altR (ihb h)
  | cat a b iha ihb =>
      by_cases hn : nullable a = true
      · simp only [deriv, if_pos hn] at h
        cases h with
        | altL h =>
            obtain ⟨l1, l2, rfl, h1, h2⟩ := RMem_cat_inv h
            exact RMem.cat (iha h1) h2
        | altR h =>
            have ha : RMem a [] := (nullable_iff a).mp hn
            exact RMem.cat ha (ihb h)
      · simp only [deriv, if_neg hn] at h
        obtain ⟨l1, l2, rfl, h1, h2⟩ := RMem_cat_inv h
        exact RMem.cat (iha h1) h2
  | star a iha =>
      simp only [deriv] at h
      obtain ⟨l1, l2, rfl, h1, h2⟩ := RMem_cat_inv h
      exact RMem.starCons (iha h1) h2

theorem deriv_complete {r : Rexp} {w : List Char} (h : RMem r w) :
    ∀ c l, w = c :: l → RMem (deriv r c) l := by
  induction h with
  | eps => intro c l hw; cases hw
  | chr d =>
      intro c l hw
      cases hw
      simp only [deriv, if_pos rfl]
      exact .eps
  | any d hd =>
      intro c l hw
      cases hw
      simp only [deriv, if_neg hd]
      exact .eps
  | digit d hd =>
      intro c l hw
      cases hw
      simp only [deriv, if_pos hd]
      exact .eps
  | cls items d hd =>
      intro c l hw
      cases hw
      simp only [deriv, if_pos hd]
      exact .eps
  | altL h ih =>
      intro c l hw
      exact .altL (ih c l hw)
  | altR h ih =>
      intro c l hw
      exact .altR (ih c l hw)
  | cat h1 h2 ih1 ih2 =>
      rename_i a b l1 l2
      intro c l hw
      cases l1 with
      | nil =>
          simp only [List.nil_append] at hw
          have hn : nullable a = true := (nullable_iff a).mpr h1
          simp only [deriv, if_pos hn]
          exact .altR (ih2 c l hw)
      | cons x xs =>
          simp only [List.cons_append, List.cons.injEq] at hw
          obtain ⟨hx, hl⟩ := hw
          subst hx
          have hx : RMem (deriv a _) xs := ih1 _ xs rfl
          by_cases hn : nullable a = true
          · simp only [deriv, if_pos hn]
            exact .altL (hl ▸ RMem.cat hx h2)
          · simp only [deriv, if_neg hn]
            exact hl ▸ RMem.cat hx h2
  | starNil => intro c l hw; cases hw
  | starCons h1 h2 ih1 ih2 =>
      rename_i a l1 l2
      intro c l hw
      cases l1 with
      | nil =>
          simp only [List.nil_append] at hw
          exact ih2 c l hw
      | cons x xs =>
          simp only [List.cons_append, List.cons.injEq] at hw
          obtain ⟨hx, hl⟩ := hw
          subst hx
          simp only [deriv]
          exact hl ▸ RMem.cat (ih1 _ xs rfl) h2

theorem fullAccept_iff (r : Rexp) (l : List Char) :
    fullAccept r l = true ↔ RMem r l := by
  induction l generalizing r with
  | nil => exact nullable_iff r
  | cons c rest ih =>
      simp only [fullAccept, List.foldl_cons]
      constructor
      · intro h
        exact deriv_sound ((ih (deriv r c)).mp h)
      · intro h
        exact (ih (deriv r c)).mpr (deriv_complete h c rest rfl)

theorem matchFrom_iff (r : Rexp) (l : List Char) :
    matchFrom r l = true ↔ ∃ p, p <+: l ∧ RMem r p := by
  induction l generalizing r with
  | nil =>
      simp only [matchFrom]
      rw [nullable_iff]
      constructor
      · intro h; exact ⟨[], List.prefix_refl [], h⟩
      · rintro ⟨p, hp, hm⟩
        rw [List.prefix_nil.mp hp] at hm
        exact hm
  | cons c rest ih =>
      simp only [matchFrom, Bool.or_eq_true]
      rw [nullable_iff, ih]
      constructor
      · rintro (h | ⟨p, hp, hm⟩)
        · exact ⟨[], ⟨c :: rest, rfl⟩, h⟩
        · refine ⟨c :: p, ?_, deriv_sound hm⟩
          obtain ⟨t, ht⟩ := hp
          exact ⟨t, by simp [← ht]⟩
      · rintro ⟨p, hp, hm⟩
        cases p with
        | nil => exact Or.inl hm
        | cons x xs =>
            obtain ⟨t, ht⟩ := hp
            simp only [List.cons_append, List.cons.injEq] at ht
            obtain ⟨hx, hrest⟩ := ht
            subst hx
            exact Or.inr ⟨xs, ⟨t, hrest⟩, deriv_complete hm _ xs rfl⟩

/-- The regex matching exactly the word `w`, character by character. -/
def litWord : List Char → Rexp
  | [] => .eps
  | c :: rest => .cat (.chr c) (litWord rest)

theorem RMem_litWord (w l : List Char) : RMem (litWord w) l ↔ l = w := by
  induction w generalizing l with
  | nil =>
      simp only [litWord]
      constructor
      · intro h; cases h; rfl
      · rintro rfl; exact .eps
  | cons c rest ih =>
      simp only [litWord]
      constructor
      · intro h
        cases h with
        | cat h1 h2 =>
            cases h1
            rename_i l2
            rw [(ih l2).mp h2]
            rfl
      · rintro rfl
        exact RMem.cat (.chr c) ((ih rest).mpr rfl)

/-- Scanner for the body of a character class `[...]` (after the opening
bracket).  Returns the items and the remaining input after `]`.  Follows
how `re` reads the classes `Mount` generates: a `-` that does not sit
between two characters is a literal, `a-b` is a range, `\x` escapes `x`
(with `\d` denoting the digit range). -/
def scanCls : List Char → List ClsItem → Option (List ClsItem × List Char)
  | [], _ => none
  | '\\' :: e :: rest, acc =>
      scanCls rest ((if e = 'd' then ClsItem.range '0' '9' else ClsItem.single e) :: acc)
  | ['\\'], _ => none
  | ']' :: rest, acc => some (acc.reverse, rest)
  | c :: '-' :: d :: rest, acc =>
      if d = ']' then some ((ClsItem.single '-' :: ClsItem.single c :: acc).reverse, rest)
      else scanCls rest (ClsItem.range c d :: acc)
  | c :: rest, acc => scanCls rest (ClsItem.single c :: acc)

/-- Scanner for a counted repetition `{n}` (input starts after the
opening brace, `\x7d` is the closing brace).  Returns the count and the
remaining input. -/
def scanCount : List Char → Nat → Bool → Option (Nat × List Char)
  | [], _, _ => none
  | c :: rest, n, seen =>
      if c = '\x7d' then (if seen then some (n, rest) else none)
      else if isPyDigit c then scanCount rest (n * 10 + (c.toNat - 48)) true
      else none

/-- The `n`-fold repetition of a regex, elaboration of a counted
repetition. -/
def repCat (a : Rexp) : Nat → Rexp
  | 0 => .eps
  | n + 1 => .cat a (repCat a n)

/-- Concatenation of a reversed atom stack (head is the atom read
last). -/
def mkCatRev (atoms : List Rexp) : Rexp :=
  atoms.foldl (fun acc a => Rexp.cat a acc) .eps

/-- Alternation of the previously closed alternatives (reversed) with
the final one. -/
def mkAlts (alts : List Rexp) (last : Rexp) : Rexp :=
  alts.foldl (fun acc a => Rexp.alt a acc) last

/-- Lexical role of a character at the top level of the parsed regex
fragment. -/
inductive ReTok where
  | alternation
  | opt
  | plus
  | rep
  | lbrace
  | lbracket
  | backslash
  | dot
  | bad
  | ord
deriving DecidableEq

/-- Classifies one pattern character ( `\x7b` is the opening brace);
`bad` collects the constructs the generated patterns never contain. -/
def classifyChar (c : Char) : ReTok :=
  if c = '|' then .alternation
  else if c = '?' then .opt
  else if c = '+' then .plus
  else if c = '*' then .rep
  else if c = '\x7b' then .lbrace
  else if c = '[' then .lbracket
  else if c = '\\' then .backslash
  else if c = '.' then .dot
  else if c = '(' then .bad
  else if c = ')' then .bad
  else if c = '^' then .bad
  else if c = '$' then .bad
  else .ord

/-- One-pass parse of the regex fragment `re.compile` receives from
`Mount`: a `|`-separated sequence of concatenations of atoms (ordinary
characters, `.`, escapes, character classes) carrying the postfix
operators `?`, `+`, `*` and counted repetition.  `fuel` bounds the
recursion; every step consumes at least one input character, so
`length + 1` fuel always suffices.  Constructs `Mount` never emits
(groups, anchors, negated classes) are rejected. -/
def reCompileCore : Nat → List Char → List Rexp → List Rexp → Option Rexp
  | _, [], alts, atoms => some (mkAlts alts (mkCatRev atoms))
  | 0, _ :: _, _, _ => none
  | fuel + 1, c :: rest, alts, atoms =>
      match classifyChar c with
      | .alternation => reCompileCore fuel rest (mkCatRev atoms :: alts) []
      | .opt =>
        match atoms with
        | a :: more => reCompileCore fuel rest alts (Rexp.alt .eps a :: more)
        | [] => none
      | .plus =>
        match atoms with
        | a :: more => reCompileCore fuel rest alts (Rexp.cat a (.star a) :: more)
        | [] => none
      | .rep =>
        match atoms with
        | a :: more => reCompileCore fuel rest alts (Rexp.star a :: more)
        | [] => none
      | .lbrace =>
        match atoms, scanCount rest 0 false with
        | a :: more, some (n, rest') => reCompileCore fuel rest' alts (repCat a n :: more)
        | _, _ => none
      | .lbracket =>
        match rest with
        | '^' :: _ => none
        | ']' :: _ => none
        | _ =>
          match scanCls rest [] with
          | some (items, rest') => reCompileCore fuel rest' alts (Rexp.cls items :: atoms)
          | none => none
      | .backslash =>
        match rest with
        | [] => none
        | e :: rest' =>
            reCompileCore fuel rest' alts ((if e = 'd' then Rexp.digit else Rexp.chr e) :: atoms)
      | .dot => reCompileCore fuel rest alts (Rexp.any :: atoms)
      | .bad => none
      | .ord => reCompileCore fuel rest alts (Rexp.chr c :: atoms)

/-- Model of `re.compile` on the pattern source strings `Mount`
builds. -/
def re_compile (pat : String) : Option Rexp :=
  reCompileCore (pat.length + 1) pat.data [] []

/-- Model of `regex.match(route) is not None`: Python `re.match`,
anchored at the start of the string only.  Pattern strings outside the
parsed fragment (which `Mount` never produces) count as
non-matching. -/
def reMatchB (pat s : String) : Bool :=
  match re_compile pat with
  | some r => matchFrom r s.data
  | none => false

/-- Matching of the entire candidate path.  Modelled from the spec for
comparison with `reMatchB`: the spec asks for a pattern "that must match
the entire candidate path (anchored start and end)"; the source anchors
only the start. -/
def reFullmatchB (pat s : String) : Bool :=
  match re_compile pat with
  | some r => fullAccept r s.data
  | none => false

/-- A character the parsed regex fragment treats as a plain literal. -/
def isOrdinaryChar (c : Char) : Bool :=
  !(c = '|' || c = '?' || c = '+' || c = '*' || c = '\x7b' || c = '[' ||
    c = '\\' || c = '.' || c = '(' || c = ')' || c = '^' || c = '$')

theorem classifyChar_ord {c : Char} (h : isOrdinaryChar c = true) :
    classifyChar c = .ord := by
  have hc : ¬(c = '|') ∧ ¬(c = '?') ∧ ¬(c = '+') ∧ ¬(c = '*') ∧
      ¬(c = '\x7b') ∧ ¬(c = '[') ∧ ¬(c = '\\') ∧ ¬(c = '.') ∧
      ¬(c = '(') ∧ ¬(c = ')') ∧ ¬(c = '^') ∧ ¬(c = '$') := by
    simpa [isOrdinaryChar, not_or, and_assoc] using h
  obtain ⟨h1, h2, h3, h4, h5, h6, h7, h8, h9, h10, h11, h12⟩ := hc
  unfold classifyChar
  rw [if_neg h1, if_neg h2, if_neg h3, if_neg h4, if_neg h5, if_neg h6,
    if_neg h7, if_neg h8, if_neg h9, if_neg h10, if_neg h11, if_neg h12]

theorem reCompileCore_lit (l : List Char) (fuel : Nat) (alts atoms : List Rexp)
    (h : ∀ c ∈ l, isOrdinaryChar c = true) (hf : l.length < fuel) :
    reCompileCore fuel l alts atoms =
      some (mkAlts alts (mkCatRev ((l.map Rexp.chr).reverse ++ atoms))) := by
  induction l generalizing fuel atoms with
  | nil => cases fuel <;> rfl
  | cons c rest ih =>
      cases fuel with
      | zero => simp at hf
      | succ f =>
          have hclass := classifyChar_ord (h c (List.mem_cons_self c rest))
          rw [show reCompileCore (f + 1) (c :: rest) alts atoms =
              reCompileCore f rest alts (Rexp.chr c :: atoms) by
            simp only [reCompileCore, hclass]]
          rw [ih f (Rexp.chr c :: atoms) (fun d hd => h d (List.mem_cons_of_mem c hd))
              (by simpa using Nat.lt_of_succ_lt_succ hf)]
          simp [List.reverse_cons, List.append_assoc]

theorem mkCatRev_map_chr (w : List Char) :
    mkCatRev ((w.map Rexp.chr).reverse) = litWord w := by
  unfold mkCatRev
  rw [List.foldl_reverse]
  induction w with
  | nil => rfl
  | cons c rest ih =>
      simp only [List.map_cons, List.foldr_cons, litWord]
      rw [ih]

theorem re_compile_lit (pat : String)
    (h : ∀ c ∈ pat.data, isOrdinaryChar c = true) :
    re_compile pat = some (litWord pat.data) := by
  unfold re_compile
  rw [reCompileCore_lit pat.data (pat.length + 1) [] [] h
    (by have : pat.length = pat.data.length := rfl; omega)]
  rw [List.append_nil, mkCatRev_map_chr]
  rfl

/-! ### The router data model (`src/Paperwrite/RocketRouter.py`) -/

/-- Decidable equality for `Except` results, needed to evaluate the
router's outcomes on concrete inputs. -/
instance instDecEqExcept {ε α : Type} [DecidableEq ε] [DecidableEq α] :
    DecidableEq (Except ε α) := fun a b =>
  match a, b with
  | .ok x, .ok y =>
      if h : x = y then .isTrue (by rw [h]) else .isFalse (by simp [h])
  | .error x, .error y =>
      if h : x = y then .isTrue (by rw [h]) else .isFalse (by simp [h])
  | .ok _, .error _ => .isFalse (by simp)
  | .error _, .ok _ => .isFalse (by simp)

/-! ### Python string primitives

The source manipulates `str` values with `split`, `startswith`, slicing,
`upper`, `strip` and `join`.  These are modelled structurally over the
character list of a `String` (Lean's own byte-position-based versions are
not kernel-reducible), with the semantics of the Python operations. -/

/-- `str.split(sep)` for a single-character separator (the source only
splits on `"/"` and `":"`), at the character-list level: every
occurrence of the separator starts a new chunk, so empty chunks are
kept, and the empty string yields `[[]]`. -/
def pySplitList (sep : Char) : List Char → List (List Char)
  | [] => [[]]
  | c :: rest =>
      let r := pySplitList sep rest
      if c = sep then [] :: r
      else
        match r with
        | [] => [[c]]
        | h :: t => (c :: h) :: t

/-- `s.split(sep)` for a single-character separator. -/
def pySplit (s : String) (sep : Char) : List String :=
  (pySplitList sep s.data).map (fun l => ⟨l⟩)

/-- `s.startswith(c)` for a single-character prefix. -/
def startsWithChar (s : String) (c : Char) : Bool :=
  match s.data with
  | [] => false
  | d :: _ => d = c

/-- The slice `s[1:-1]`: the string without its first and last
characters. -/
def pySlice1m1 (s : String) : String :=
  ⟨(s.data.drop 1).dropLast⟩

/-- `s.upper()` (ASCII; the type tags the source compares against are
ASCII). -/
def pyUpper (s : String) : String :=
  ⟨s.data.map Char.toUpper⟩

/-- A character `str.strip()` removes. -/
def isPySpace (c : Char) : Bool :=
  c = ' ' || c = '\t' || c = '\n' || c = '\r' || c = '\x0b' || c = '\x0c'

/-- `s.strip()`: surrounding whitespace removed. -/
def pyStrip (s : String) : String :=
  ⟨((s.data.dropWhile isPySpace).reverse.dropWhile isPySpace).reverse⟩

/-- `sep.join(parts)`. -/
def pyJoin (sep : String) : List String → String
  | [] => ""
  | [s] => s
  | s :: rest => s ++ sep ++ pyJoin sep rest

/-- The Python value types appearing as `t` in
`RocketPathVariableTypesRepresentation` (`str`, `int`, `float`). -/
inductive PyType where
  | pyStr
  | pyInt
  | pyFloat
deriving DecidableEq

/-- Representation tuple for values in the `RocketPathVariableTypes`
enum: Python type and regex source string. -/
structure RocketPathVariableTypesRepresentation where
  t : PyType
  regex : String
deriving DecidableEq

namespace RocketPathVariableTypes

/-- `uuid4` — UUID version 4. -/
def UUID4 : RocketPathVariableTypesRepresentation :=
  ⟨.pyStr, "[a-f0-9]{8}-?[a-f0-9]{4}-?4[a-f0-9]{3}-?[89ab][a-f0-9]{3}-?[a-f0-9]{12}"⟩

/-- `str` — strings without "/". -/
def STR : RocketPathVariableTypesRepresentation :=
  ⟨.pyStr, "[-a-zA-Z0-9@:%._\\+~#=]+"⟩

/-- `int64` — integers 64bit. -/
def INT64 : RocketPathVariableTypesRepresentation :=
  ⟨.pyInt, "[-+]?\\d+"⟩

/-- `float64` — floats 64bit. -/
def FLOAT64 : RocketPathVariableTypesRepresentation :=
  ⟨.pyFloat, "[-+]?\\d*\\.?\\d+|\\d+"⟩

/-- `RocketPathVariableTypes.FromStr`: upper-cases the tag and looks it
up among the enum members, defaulting to `STR`.  (The Python code reads
the class `__dict__`, whose only all-uppercase keys are the four
members; `str.upper` and `String.toUpper` agree on ASCII tags.) -/
def FromStr (t : String) : RocketPathVariableTypesRepresentation :=
  let u := pyUpper t
  if u = "UUID4" then UUID4
  else if u = "STR" then STR
  else if u = "INT64" then INT64
  else if u = "FLOAT64" then FLOAT64
  else STR

end RocketPathVariableTypes

/-- Named tuple for a path-variable template: index of the module after
the filtered split on `/`, represented Python type, and name. -/
structure RocketPathVariable where
  Index : Nat
  Class : PyType
  Name : String
deriving DecidableEq

/-- Lookup in a Python-`dict`-like association list (`dict.get`). -/
def dictGet {α : Type} (d : List (String × α)) (k : String) : Option α :=
  match d with
  | [] => none
  | (k', v) :: rest => if k' = k then some v else dictGet rest k

/-- Update of a Python-`dict`-like association list (`d[k] = v`):
overwriting keeps the key's original insertion position. -/
def dictInsert {α : Type} (d : List (String × α)) (k : String) (v : α) :
    List (String × α) :=
  match d with
  | [] => [(k, v)]
  | (k', v') :: rest => if k' = k then (k, v) :: rest else (k', v') :: dictInsert rest k v

namespace HttpApiMethods

/-- `HttpApiMethods.POSSIBLE_METHODS` — all possible/existing HTTP
methods. -/
def POSSIBLE_METHODS : List String := ["GET", "POST", "PUT", "DELETE", "PATCH"]

/-- `HttpApiMethods.Register`: walks `acceptedHttpMethods` in order,
mapping each supported method to the function pointer; the first
unsupported method stops the walk (the Python code raises
`NotSupportedError` there), leaving the earlier insertions in place.
Returns the updated lookup and the offending method, if any. -/
def Register {H : Type} (lookup : List (String × H)) (acceptedHttpMethods : List String)
    (functionPtr : H) : List (String × H) × Option String :=
  match acceptedHttpMethods with
  | [] => (lookup, none)
  | method :: rest =>
      if method ∈ POSSIBLE_METHODS then
        Register (dictInsert lookup method functionPtr) rest functionPtr
      else (lookup, some method)

end HttpApiMethods

/-- A mounted route: original template text, extracted variables, and
the method → handler lookup (`HttpApiMethods.FunctionsLookup`).
Handlers are opaque values of a parameter type `H`. -/
structure RocketTemplatedPath (H : Type) where
  TemplatedPathStr : String
  TemplatedPathVariables : List RocketPathVariable
  HttpMethodsMap : List (String × H)
deriving DecidableEq

/-- Result of coercing a path segment with `var.Class(...)`.  A float
value keeps its source literal: IEEE-754 arithmetic is outside the
scope of the modelled claims, only success or failure of `float()`
matters here. -/
inductive PyValue where
  | vStr (s : String)
  | vInt (n : Int)
  | vFloat (s : String)
deriving DecidableEq

/-- Digits possibly separated by single underscores — the tail of
Python's `int()` literal grammar after the first digit. -/
def pyDigitsTail : List Char → Bool
  | [] => true
  | '_' :: c :: rest => isPyDigit c && pyDigitsTail rest
  | c :: rest => isPyDigit c && pyDigitsTail rest

/-- Numeric value of a digit run (underscores skipped). -/
def digitsVal (l : List Char) : Nat :=
  (l.filter (fun c => c ≠ '_')).foldl (fun a c => a * 10 + (c.toNat - 48)) 0

/-- A nonempty digit run with optional single underscores between
digits, and its value. -/
def pyNatOfDigits (l : List Char) : Option Nat :=
  match l with
  | [] => none
  | c :: rest =>
      if isPyDigit c && pyDigitsTail rest then some (digitsVal (c :: rest)) else none

/-- Model of Python `int(str)`: optional surrounding whitespace, an
optional sign, then decimal digits; anything else raises `ValueError`
(`none`).  Unicode digits are approximated by ASCII. -/
def pyIntOfString (s : String) : Option Int :=
  match (pyStrip s).data with
  | '+' :: rest => (pyNatOfDigits rest).map Int.ofNat
  | '-' :: rest => (pyNatOfDigits rest).map (fun n => -(Int.ofNat n : Int))
  | l => (pyNatOfDigits l).map Int.ofNat

/-- Mantissa of a Python `float()` literal: `digits`, `digits.`,
`digits.digits` or `.digits`. -/
def pyFloatMantissa (l : List Char) : Bool :=
  match pySplitList '.' l with
  | [intPart] => !intPart.isEmpty && intPart.all isPyDigit
  | [intPart, fracPart] =>
      !(intPart.isEmpty && fracPart.isEmpty) && intPart.all isPyDigit &&
        fracPart.all isPyDigit
  | _ => false

/-- Exponent tail of a `float()` literal, after `e`/`E`. -/
def pyFloatExpTail (l : List Char) : Bool :=
  match l with
  | [] => false
  | '+' :: rest => !rest.isEmpty && rest.all isPyDigit
  | '-' :: rest => !rest.isEmpty && rest.all isPyDigit
  | l => l.all isPyDigit

/-- Model of acceptance by Python `float(str)` (finite decimal
literals; the rarely used `inf`/`nan` spellings and underscores are not
modelled — no mounted route type exercises float coercion in the
claims). -/
def pyFloatAccepts (s : String) : Bool :=
  let l := (pyStrip s).data
  let body := match l with
    | '+' :: rest => rest
    | '-' :: rest => rest
    | l => l
  let mexp := body.span (fun c => !(c = 'e' || c = 'E'))
  match mexp.2 with
  | [] => pyFloatMantissa mexp.1
  | _ :: tail => pyFloatMantissa mexp.1 && pyFloatExpTail tail

/-- `var.Class(segment)` — coercion of a path segment to the variable's
represented Python type; `none` models a raised `ValueError`. -/
def pyCoerce : PyType → String → Option PyValue
  | .pyStr, s => some (.vStr s)
  | .pyInt, s => (pyIntOfString s).map PyValue.vInt
  | .pyFloat, s => if pyFloatAccepts s then some (.vFloat s) else none

namespace HttpStatus

/-- `HttpStatus.MULTIPLE_CHOICES` (only the members the router uses are
transcribed from `Paperwrite.Rest`). -/
def MULTIPLE_CHOICES : Nat := 300

/-- `HttpStatus.NOT_FOUND`. -/
def NOT_FOUND : Nat := 404

/-- `HttpStatus.METHOD_NOT_ALLOWED`. -/
def METHOD_NOT_ALLOWED : Nat := 405

end HttpStatus

/-- The `Error(msg, httpStatus)` values `Match` returns
(`Paperwrite.PyAdditions.Errors.Error`, an exception used as a value). -/
structure Error where
  Msg : String
  Status : Nat
deriving DecidableEq

/-- The Python exceptions the router can raise: `ValueError` (tuple
unpacking, `int()`/`float()` coercion), `IndexError` (module lookup),
`re.error` (pattern compilation) and `NotSupportedError`. -/
inductive PyExn where
  | valueError
  | indexError
  | reError
  | notSupportedError (msg : String)
deriving DecidableEq

/-- The `NotSupportedError` message raised by `Register` (`\x27` is a
single quote). -/
def nsMsg (method : String) : String :=
  "unsupported rest-method: \x27" ++ method ++ "\x27"

/-- The router: `routes` maps the compiled pattern to its
`RocketTemplatedPath`.  CPython interns compiled patterns per source
string through the `re` compile cache, so the dictionary keys of the
source coincide exactly when the pattern source strings do; the model
therefore keys by the pattern source string. -/
structure RocketRouter (H : Type) where
  routes : List (String × RocketTemplatedPath H)
deriving DecidableEq

/-- `RocketRouter()` — the empty route table. -/
def emptyRouter {H : Type} : RocketRouter H := ⟨[]⟩

/-- `templatedPathStr.split("/")` with empty modules filtered out — the
first two lines of `Mount`. -/
def templateModules (templatedPathStr : String) : List String :=
  (pySplit templatedPathStr '/').filter (fun m => m ≠ "")

/-- The variable-substitution loop of `Mount`: walks the modules,
replaces each variable module (one that starts with `\x7b`) by its
type's regex and records a `RocketPathVariable`; a variable module
whose brace-stripped interior does not split on ":" into exactly two
parts makes the tuple unpacking raise `ValueError`. -/
def compileModules : List String → Nat → Except PyExn (List String × List RocketPathVariable)
  | [], _ => .ok ([], [])
  | mod :: rest, index =>
      if startsWithChar mod '\x7b' then
        match pySplit (pySlice1m1 mod) ':' with
        | [varname, vartype] =>
            let vt := RocketPathVariableTypes.FromStr vartype
            match compileModules rest (index + 1) with
            | .ok (mods, vars) => .ok (vt.regex :: mods, ⟨index, vt.t, varname⟩ :: vars)
            | .error e => .error e
        | _ => .error .valueError
      else
        match compileModules rest (index + 1) with
        | .ok (mods, vars) => .ok (mod :: mods, vars)
        | .error e => .error e

/-- Returned tuple on a matched path: mapped variables and function
pointer (`RocketSpecificPath`). -/
structure RocketSpecificPath (H : Type) where
  Vars : List (String × PyValue)
  Function : H
deriving DecidableEq

namespace RocketRouter

/-- `RocketRouter.Mount`: splits and compiles the template, joins the
(substituted) modules with `/` into one pattern, and registers it: a
fresh pattern gets a new `RocketTemplatedPath` (whose constructor runs
`Register` from an empty lookup — if that raises, nothing is inserted),
while an existing pattern has the methods merged into its lookup in
place (a raise there leaves the earlier merges visible).  The returned
`Option PyExn` is the exception escaping the call, `none` on
success. -/
def Mount {H : Type} (self : RocketRouter H) (templatedPathStr : String) (functionPtr : H)
    (acceptedHttpMethods : List String) : RocketRouter H × Option PyExn :=
  match compileModules (templateModules templatedPathStr) 0 with
  | .error e => (self, some e)
  | .ok (modules, varsList) =>
      let pattern := pyJoin "/" modules
      match re_compile pattern with
      | none => (self, some .reError)
      | some _ =>
          match dictGet self.routes pattern with
          | none =>
              match HttpApiMethods.Register ([] : List (String × H)) acceptedHttpMethods
                  functionPtr with
              | (_, some m) => (self, some (.notSupportedError (nsMsg m)))
              | (lk, none) =>
                  (⟨dictInsert self.routes pattern ⟨templatedPathStr, varsList, lk⟩⟩, none)
          | some tpl =>
              match HttpApiMethods.Register tpl.HttpMethodsMap acceptedHttpMethods
                  functionPtr with
              | (lk, err) =>
                  (⟨dictInsert self.routes pattern { tpl with HttpMethodsMap := lk }⟩,
                    err.map (fun m => .notSupportedError (nsMsg m)))

/-- The candidate-collection loop of `Match`: every route whose
compiled pattern `re.match`es the route string (start-anchored). -/
def candidateTemplates {H : Type} (self : RocketRouter H) (route : String) :
    List (RocketTemplatedPath H) :=
  (self.routes.filter (fun rt => reMatchB rt.1 route)).map Prod.snd

/-- The variable-coercion loop of `Match`:
`variables[var.Name] = var.Class(modules[var.Index])`.  An
out-of-range index raises `IndexError`, a failing coercion raises
`ValueError`. -/
def matchVariables (vars : List RocketPathVariable) (modules : List String)
    (acc : List (String × PyValue)) : Except PyExn (List (String × PyValue)) :=
  match vars with
  | [] => .ok acc
  | v :: rest =>
      match modules.get? v.Index with
      | none => .error .indexError
      | some seg =>
          match pyCoerce v.Class seg with
          | none => .error .valueError
          | some val => matchVariables rest modules (dictInsert acc v.Name val)

/-- `RocketRouter.Match`: collects the candidates, requires exactly
one, coerces the variables out of `route.split("/")` (not filtered for
empty segments), and looks the method up.  The first component is the
router state after the call (the code only reads `self.routes`); the
second is the raised exception or the returned
`Tuple[RocketSpecificPath, Error]`, modelled as an `Option` pair. -/
def Match {H : Type} (self : RocketRouter H) (route : String) (httpApiFunc : String) :
    RocketRouter H × Except PyExn (Option (RocketSpecificPath H) × Option Error) :=
  let modules := pySplit route '/'
  match candidateTemplates self route with
  | [] =>
      (self, .ok (none, some ⟨"no matching routes could be found", HttpStatus.NOT_FOUND⟩))
  | _ :: _ :: _ =>
      (self, .ok (none, some ⟨"to many matched routes found", HttpStatus.MULTIPLE_CHOICES⟩))
  | [template] =>
      match matchVariables template.TemplatedPathVariables modules [] with
      | .error e => (self, .error e)
      | .ok varsList =>
          match dictGet template.HttpMethodsMap httpApiFunc with
          | none =>
              (self, .ok (none,
                some ⟨"HTTP method is not allowed on this route", HttpStatus.METHOD_NOT_ALLOWED⟩))
          | some functionPtr => (self, .ok (some ⟨varsList, functionPtr⟩, none))

end RocketRouter

/-! ### Support lemmas -/

/-- The first method of a list that is not a supported HTTP verb. -/
def firstUnsupported : List String → Option String
  | [] => none
  | m :: rest =>
      if m ∈ HttpApiMethods.POSSIBLE_METHODS then firstUnsupported rest else some m

/-- The lookup produced by registering each method of a list in order
(all of them assumed supported). -/
def registerAll {H : Type} (lookup : List (String × H)) (ms : List String) (f : H) :
    List (String × H) :=
  ms.foldl (fun acc m => dictInsert acc m f) lookup

theorem Register_eq {H : Type} (lookup : List (String × H)) (ms : List String) (f : H) :
    HttpApiMethods.Register lookup ms f =
      (registerAll lookup
        (ms.takeWhile (fun m => decide (m ∈ HttpApiMethods.POSSIBLE_METHODS))) f,
       firstUnsupported ms) := by
  induction ms generalizing lookup with
  | nil => rfl
  | cons m rest ih =>
      by_cases hm : m ∈ HttpApiMethods.POSSIBLE_METHODS
      · simp only [HttpApiMethods.Register, if_pos hm, firstUnsupported,
          List.takeWhile_cons, decide_eq_true hm, ih]
        rfl
      · simp only [HttpApiMethods.Register, if_neg hm, firstUnsupported,
          List.takeWhile_cons, decide_eq_false hm]
        rfl

theorem takeWhile_of_firstUnsupported_none {ms : List String}
    (h : firstUnsupported ms = none) :
    ms.takeWhile (fun m => decide (m ∈ HttpApiMethods.POSSIBLE_METHODS)) = ms := by
  induction ms with
  | nil => rfl
  | cons m rest ih =>
      by_cases hm : m ∈ HttpApiMethods.POSSIBLE_METHODS
      · simp only [firstUnsupported, if_pos hm] at h
        simp [List.takeWhile_cons, decide_eq_true hm, ih h]
      · simp [firstUnsupported, if_neg hm] at h

theorem compileModules_novar (mods : List String) (i : Nat)
    (h : ∀ m ∈ mods, startsWithChar m '\x7b' = false) :
    compileModules mods i = .ok (mods, []) := by
  induction mods generalizing i with
  | nil => rfl
  | cons m rest ih =>
      have hm := h m (List.mem_cons_self m rest)
      simp only [compileModules, hm, Bool.false_eq_true, if_false,
        ih (i + 1) (fun d hd => h d (List.mem_cons_of_mem m hd))]

theorem compileModules_error (mods : List String) (i : Nat)
    (h : ∃ m ∈ mods, startsWithChar m '\x7b' = true ∧
      (pySplit (pySlice1m1 m) ':').length ≠ 2) :
    compileModules mods i = .error .valueError := by
  induction mods generalizing i with
  | nil => obtain ⟨m, hm, _⟩ := h; cases hm
  | cons m rest ih =>
      obtain ⟨b, hb, hb1, hb2⟩ := h
      rcases List.mem_cons.mp hb with rfl | hbr
      · simp only [compileModules, hb1, if_true]
        rcases hsp : pySplit (pySlice1m1 b) ':' with _ | ⟨a, _ | ⟨c, _ | _⟩⟩ <;>
          first
            | rfl
            | (exfalso; apply hb2; rw [hsp]; rfl)
      · by_cases hm : startsWithChar m '\x7b' = true
        · simp only [compileModules, hm, if_true]
          rcases hsp : pySplit (pySlice1m1 m) ':' with _ | ⟨a, _ | ⟨c, _ | _⟩⟩ <;>
            first
              | rfl
              | (rw [ih (i + 1) ⟨b, hbr, hb1, hb2⟩])
        · simp only [compileModules, hm, Bool.false_eq_true, if_false,
            ih (i + 1) ⟨b, hbr, hb1, hb2⟩]

theorem dictGet_dictInsert_self {α : Type} (d : List (String × α)) (k : String) (v : α) :
    dictGet (dictInsert d k v) k = some v := by
  induction d with
  | nil => simp [dictGet, dictInsert]
  | cons e rest ih =>
      by_cases hk : e.1 = k
      · simp [dictGet, dictInsert, hk]
      · simp [dictGet, dictInsert, hk, ih]

theorem dictInsert_length_of_get {α : Type} (d : List (String × α)) (k : String)
    (v v' : α) (h : dictGet d k = some v') :
    (dictInsert d k v).length = d.length := by
  induction d with
  | nil => simp [dictGet] at h
  | cons e rest ih =>
      by_cases hk : e.1 = k
      · simp [dictInsert, hk]
      · simp only [dictGet, hk, if_false] at h
        simp [dictInsert, hk, ih h]

theorem matchFrom_litWord (w l : List Char) :
    matchFrom (litWord w) l = true ↔ w <+: l := by
  rw [matchFrom_iff]
  constructor
  · rintro ⟨p, hp, hm⟩
    rwa [(RMem_litWord w p).mp hm] at hp
  · intro hp
    exact ⟨w, hp, (RMem_litWord w w).mpr rfl⟩

theorem reMatchB_litWord {pat : String} (s : String)
    (h : re_compile pat = some (litWord pat.data)) :
    reMatchB pat s = true ↔ pat.data <+: s.data := by
  rw [reMatchB, h]
  exact matchFrom_litWord pat.data s.data

/-! ### Example routers used by the claims (handlers are `Nat` ids) -/

/-- The literal template `/items` mounted on an empty router. -/
def itemsRouter : RocketRouter Nat :=
  (RocketRouter.Mount emptyRouter "/items" 0 ["GET"]).1

/-- The compiled route that mounting `/items` creates. -/
def itemsTpl : RocketTemplatedPath Nat := ⟨"/items", [], [("GET", 0)]⟩

/-- The parsed matcher of the pattern source `items`. -/
def itemsRexp : Rexp := litWord "items".data

/-- The template `/items/{n:int64}` mounted on an empty router. -/
def itemsIntRouter : RocketRouter Nat :=
  (RocketRouter.Mount emptyRouter "/items/{n:int64}" 0 ["GET"]).1

/-- The overlapping templates `/a/{x:str}` and `/a/{y:int64}` mounted on
an empty router. -/
def abRouter : RocketRouter Nat :=
  (RocketRouter.Mount ((RocketRouter.Mount emptyRouter "/a/{x:str}" 1 ["GET"]).1)
    "/a/{y:int64}" 2 ["GET"]).1

/-- The template `/a/{x:int64}` mounted on an empty router. -/
def aIntRouter : RocketRouter Nat :=
  (RocketRouter.Mount emptyRouter "/a/{x:int64}" 0 ["GET"]).1

/-- Modelled from the spec (§4.4 step 1): the segment decomposition the
spec compares request paths by — split on `/`, empty segments
discarded.  (`Match` itself never filters the split of the request
path.) -/
def pathSegments (s : String) : List String :=
  (pySplit s '/').filter (fun m => m ≠ "")

/-! ### The claims -/

/-- C1, counterexample: the template `/items` compiles to the matcher
source `items`, which `re.match` accepts against the candidate path
`items/extra` although it does not match that entire path; `Match`
collects the route as a candidate for that path.  The matcher is not
anchored at the end. -/
theorem C1_counterexample :
    itemsRouter.routes = [("items", itemsTpl)] ∧
    reMatchB "items" "items/extra" = true ∧
    reFullmatchB "items" "items/extra" = false ∧
    RocketRouter.candidateTemplates itemsRouter "items/extra" = [itemsTpl] := by decide

/-- C1, amended: a mounted matcher is anchored at the start only
(`re.match`): `Match` collects a route as a candidate exactly when some
prefix of the incoming path lies in the matcher's language (not only
when the matcher matches the entire path). -/
theorem C1_amended {H : Type} (self : RocketRouter H) (route pat : String)
    (t : RocketTemplatedPath H) (r : Rexp) (hc : re_compile pat = some r) :
    ((pat, t) ∈ self.routes.filter (fun rt => reMatchB rt.1 route)) ↔
      ((pat, t) ∈ self.routes ∧ ∃ p, p <+: route.data ∧ RMem r p) := by
  rw [List.mem_filter]
  constructor
  · rintro ⟨hmem, hb⟩
    refine ⟨hmem, ?_⟩
    rw [reMatchB, hc] at hb
    exact (matchFrom_iff r route.data).mp hb
  · rintro ⟨hmem, hp⟩
    refine ⟨hmem, ?_⟩
    rw [reMatchB, hc]
    exact (matchFrom_iff r route.data).mpr hp

/-- C1, witness: the amended statement applied to the `/items` route
and the path `items/extra`. -/
theorem C1_witness :
    (("items", itemsTpl) ∈ itemsRouter.routes.filter (fun rt => reMatchB rt.1 "items/extra")) ↔
      (("items", itemsTpl) ∈ itemsRouter.routes ∧
        ∃ p, p <+: "items/extra".data ∧ RMem itemsRexp p) :=
  C1_amended itemsRouter "items/extra" "items" itemsTpl itemsRexp (by decide)

/-- C2, counterexample: with the literal template `/items` mounted,
`Match("items/extra", "GET")` succeeds although the path does not equal
the template segment-wise, and `Match("/items", "GET")` fails although
segment-wise (empty segments discarded) it does: matching is a string
prefix check on the unfiltered path, so suffixes are ignored but a
leading slash on the request path is significant. -/
theorem C2_counterexample :
    (RocketRouter.Match itemsRouter "items/extra" "GET").2 =
      .ok (some ⟨[], 0⟩, none) ∧
    pathSegments "items/extra" ≠ pathSegments "/items" ∧
    pathSegments "/items" = pathSegments "/items" ∧
    (RocketRouter.Match itemsRouter "/items" "GET").2 =
      .ok (none, some ⟨"no matching routes could be found", HttpStatus.NOT_FOUND⟩) := by
  decide

/-- C3, counterexample: after mounting `/items/{n:int64}`, `Match`
applied to the path `/items/42` exactly as the claim states it — with a
leading slash — returns the NotFound error instead of a ResolvedCall
with `n = 42`: the start-anchored matcher `items/[-+]?\d+` does not
match a path beginning with `/`. -/
theorem C3_counterexample :
    (RocketRouter.Match itemsIntRouter "/items/42" "GET").2 =
      .ok (none, some ⟨"no matching routes could be found", HttpStatus.NOT_FOUND⟩) := by
  decide

/-- C3, amended: on the prefix-stripped paths the hosting layer
delivers (no leading slash), the claim holds: `Match("items/42","GET")`
returns a ResolvedCall with `namedArguments = [(n, 42)]` and a native
integer, and `Match("items/abc","GET")` returns the NotFound error —
the int64 regex never matches — rather than a coercion error. -/
theorem C3_amended :
    (RocketRouter.Match itemsIntRouter "items/42" "GET").2 =
      .ok (some ⟨[("n", PyValue.vInt 42)], 0⟩, none) ∧
    (RocketRouter.Match itemsIntRouter "items/abc" "GET").2 =
      .ok (none, some ⟨"no matching routes could be found", HttpStatus.NOT_FOUND⟩) := by
  decide

/-- C4, counterexample: with `/a/{x:str}` and `/a/{y:int64}` mounted,
`Match` applied to the path `/a/42` exactly as the claim states it —
with a leading slash — returns NotFound (404), not AmbiguousRoute
(300): neither start-anchored matcher accepts a path beginning with
`/`. -/
theorem C4_counterexample :
    (RocketRouter.Match abRouter "/a/42" "GET").2 =
      .ok (none, some ⟨"no matching routes could be found", HttpStatus.NOT_FOUND⟩) ∧
    HttpStatus.NOT_FOUND ≠ HttpStatus.MULTIPLE_CHOICES := by decide

/-- C4, amended: on the prefix-stripped path `a/42` both mounted
matchers accept, and `Match` returns the AmbiguousRoute error (HTTP
300) for every method — the error is produced before the method is even
consulted, and no route is silently chosen. -/
theorem C4_amended (m : String) :
    (RocketRouter.Match abRouter "a/42" m).2 =
      .ok (none, some ⟨"to many matched routes found", HttpStatus.MULTIPLE_CHOICES⟩) := by
  rfl

/-- C6, counterexample: a call whose methods are all supported can
still fail: `Mount("/x/{name}", h, ["GET"])` raises the unpacking
`ValueError` (the variable segment has no colon), so "if every name in
methods is supported the call succeeds" does not hold for every
template. -/
theorem C6_counterexample :
    RocketRouter.Mount (emptyRouter (H := Nat)) "/x/{name}" 0 ["GET"] =
      (emptyRouter, some PyExn.valueError) := by decide

/-- C7, counterexample: `Match` can raise: with `/a/{x:int64}` mounted,
the path `a/42xyz` is prefix-matched by the start-anchored matcher
(`a/42`), becomes the only candidate, and `int("42xyz")` then raises an
uncaught `ValueError` — `Match` does not always return its outcome as a
value. -/
theorem C7_counterexample :
    (RocketRouter.Match aIntRouter "a/42xyz" "GET").2 = .error PyExn.valueError := by
  decide

/-- C9: a template containing a segment that starts with `\x7b` but
whose brace-stripped interior does not split on ":" into exactly two
parts makes `Mount` raise the unpacking `ValueError` (not a
configuration error), and the route table is left unchanged. -/
theorem C9_mount_unpacking {H : Type} (r : RocketRouter H) (T : String) (h : H)
    (ms : List String)
    (hbad : ∃ mod ∈ templateModules T, startsWithChar mod '\x7b' = true ∧
      (pySplit (pySlice1m1 mod) ':').length ≠ 2) :
    RocketRouter.Mount r T h ms = (r, some PyExn.valueError) := by
  unfold RocketRouter.Mount
  rw [compileModules_error (templateModules T) 0 hbad]

/-- C9, witness: the malformed template `/y/{a:b:c}` (three colon-parts)
raises `ValueError` and registers nothing. -/
theorem C9_witness :
    RocketRouter.Mount (emptyRouter (H := Nat)) "/y/{a:b:c}" 1 ["POST"] =
      (emptyRouter, some PyExn.valueError) :=
  C9_mount_unpacking emptyRouter "/y/{a:b:c}" 1 ["POST"] (by decide)

/-- C8: `Match` never mutates the route table: for every router state,
path and method, the router after the call is the router before it
(every return path of `Match` passes the state through unchanged; the
code only reads `self.routes`). -/
theorem C8_match_readonly {H : Type} (self : RocketRouter H) (route m : String) :
    (RocketRouter.Match self route m).1 = self := by
  simp only [RocketRouter.Match]
  rcases hc : RocketRouter.candidateTemplates self route with _ | ⟨t, _ | ⟨t2, ts⟩⟩ <;>
    simp only [hc]
  rcases hv : RocketRouter.matchVariables t.TemplatedPathVariables (pySplit route '/') []
      with e | vl <;> simp only [hv]
  rcases hg : dictGet t.HttpMethodsMap m with _ | f <;> simp only [hg]

/-- C7, amended: `Match` can raise (the variable coercion of a
prefix-matched path, see the counterexample); whenever it does not
raise, it returns exclusively either a ResolvedCall with no error or no
ResolvedCall with an error whose HTTP status is 404 Not Found, 405
Method Not Allowed or 300 Multiple Choices. -/
theorem C7_amended {H : Type} (self : RocketRouter H) (route m : String) :
    (∃ e, (RocketRouter.Match self route m).2 = .error e) ∨
    (∃ rsp, (RocketRouter.Match self route m).2 = .ok (some rsp, none)) ∨
    (∃ msg st, (RocketRouter.Match self route m).2 = .ok (none, some ⟨msg, st⟩) ∧
      (st = HttpStatus.NOT_FOUND ∨ st = HttpStatus.METHOD_NOT_ALLOWED ∨
        st = HttpStatus.MULTIPLE_CHOICES)) := by
  simp only [RocketRouter.Match]
  rcases hc : RocketRouter.candidateTemplates self route with _ | ⟨t, _ | ⟨t2, ts⟩⟩ <;>
    simp only [hc]
  · exact Or.inr (Or.inr ⟨_, _, rfl, Or.inl rfl⟩)
  · rcases hv : RocketRouter.matchVariables t.TemplatedPathVariables (pySplit route '/') []
        with e | vl <;> simp only [hv]
    · exact Or.inl ⟨_, rfl⟩
    · rcases hg : dictGet t.HttpMethodsMap m with _ | f <;> simp only [hg]
      · exact Or.inr (Or.inr ⟨_, _, rfl, Or.inr (Or.inl rfl)⟩)
      · exact Or.inr (Or.inl ⟨_, rfl⟩)
  · exact Or.inr (Or.inr ⟨_, _, rfl, Or.inr (Or.inr rfl)⟩)

/-- C6, amended: for a template whose compilation succeeds (well-formed
variable segments and a compilable pattern), `Mount` succeeds exactly
when every method name is a supported HTTP verb, and the first
unsupported name makes the call fail at mount time with a
`NotSupportedError` whose message names that method. -/
theorem C6_amended {H : Type} (r : RocketRouter H) (T : String) (h : H)
    (ms mods : List String) (vars : List RocketPathVariable)
    (hcm : compileModules (templateModules T) 0 = .ok (mods, vars))
    (hre : (re_compile (pyJoin "/" mods)).isSome = true) :
    ((firstUnsupported ms = none → (RocketRouter.Mount r T h ms).2 = none) ∧
     (∀ m0, firstUnsupported ms = some m0 →
        (RocketRouter.Mount r T h ms).2 = some (.notSupportedError (nsMsg m0)))) := by
  obtain ⟨rx, hrx⟩ := Option.isSome_iff_exists.mp hre
  cases hget : dictGet r.routes (pyJoin "/" mods) with
  | none =>
      constructor
      · intro hnone
        simp only [RocketRouter.Mount, hcm, hrx, hget, Register_eq, hnone]
      · intro m0 hsome
        simp only [RocketRouter.Mount, hcm, hrx, hget, Register_eq, hsome]
  | some tpl =>
      constructor
      · intro hnone
        simp only [RocketRouter.Mount, hcm, hrx, hget, Register_eq, hnone, Option.map_none']
      · intro m0 hsome
        simp only [RocketRouter.Mount, hcm, hrx, hget, Register_eq, hsome, Option.map_some']

/-- C6, witness: the amended statement applied to `Mount("/x", h,
["FETCH"])`, whose first unsupported method is `FETCH`. -/
theorem C6_witness :
    ((firstUnsupported ["FETCH"] = none →
        (RocketRouter.Mount (emptyRouter (H := Nat)) "/x" 0 ["FETCH"]).2 = none) ∧
     (∀ m0, firstUnsupported ["FETCH"] = some m0 →
        (RocketRouter.Mount (emptyRouter (H := Nat)) "/x" 0 ["FETCH"]).2 =
          some (.notSupportedError (nsMsg m0)))) :=
  C6_amended emptyRouter "/x" 0 ["FETCH"] ["x"] [] (by decide) (by decide)

/-- C10: `Mount` is atomic on an unsupported-method error only for new
templates: when the compiled pattern is not yet in the table the router
is unchanged, but when it is present (a merge registration) the
existing route's method table has every supported method before the
offending one already remapped to the new handler when the exception is
raised. -/
theorem C10_mount_partial {H : Type} (r : RocketRouter H) (T : String) (h : H)
    (ms mods : List String) (vars : List RocketPathVariable) (m0 : String)
    (hcm : compileModules (templateModules T) 0 = .ok (mods, vars))
    (hre : (re_compile (pyJoin "/" mods)).isSome = true)
    (hbad : firstUnsupported ms = some m0) :
    ((dictGet r.routes (pyJoin "/" mods) = none → (RocketRouter.Mount r T h ms).1 = r) ∧
     (∀ tpl, dictGet r.routes (pyJoin "/" mods) = some tpl →
        ((RocketRouter.Mount r T h ms).1).routes =
          dictInsert r.routes (pyJoin "/" mods)
            ⟨tpl.TemplatedPathStr, tpl.TemplatedPathVariables,
              registerAll tpl.HttpMethodsMap
                (ms.takeWhile (fun m => decide (m ∈ HttpApiMethods.POSSIBLE_METHODS))) h⟩) ∧
     (RocketRouter.Mount r T h ms).2 = some (.notSupportedError (nsMsg m0))) := by
  obtain ⟨rx, hrx⟩ := Option.isSome_iff_exists.mp hre
  cases hget : dictGet r.routes (pyJoin "/" mods) with
  | none =>
      have hmount : RocketRouter.Mount r T h ms = (r, some (.notSupportedError (nsMsg m0))) := by
        simp only [RocketRouter.Mount, hcm, hrx, hget, Register_eq, hbad]
      refine ⟨fun _ => by rw [hmount], fun tpl htpl => by simp [hget] at htpl, by rw [hmount]⟩
  | some tpl =>
      have hmount : RocketRouter.Mount r T h ms =
          (⟨dictInsert r.routes (pyJoin "/" mods)
              ⟨tpl.TemplatedPathStr, tpl.TemplatedPathVariables,
                registerAll tpl.HttpMethodsMap
                  (ms.takeWhile (fun m => decide (m ∈ HttpApiMethods.POSSIBLE_METHODS))) h⟩⟩,
           some (.notSupportedError (nsMsg m0))) := by
        simp only [RocketRouter.Mount, hcm, hrx, hget, Register_eq, hbad, Option.map_some']
      refine ⟨fun hnone => by simp at hnone, fun tpl' htpl' => ?_, by rw [hmount]⟩
      rw [← Option.some.inj htpl', hmount]

/-- C10, witness: mounting `/x` again over an existing `/x` route with
`["POST", "FETCH", "DELETE"]` maps POST to the new handler, raises on
FETCH, and never reaches DELETE. -/
theorem C10_witness :
    ((dictGet ((RocketRouter.Mount (emptyRouter (H := Nat)) "/x" 1 ["GET"]).1).routes
          (pyJoin "/" ["x"]) = none →
        (RocketRouter.Mount ((RocketRouter.Mount (emptyRouter (H := Nat)) "/x" 1 ["GET"]).1)
            "/x" 2 ["POST", "FETCH", "DELETE"]).1 =
          (RocketRouter.Mount (emptyRouter (H := Nat)) "/x" 1 ["GET"]).1) ∧
     (∀ tpl, dictGet ((RocketRouter.Mount (emptyRouter (H := Nat)) "/x" 1 ["GET"]).1).routes
          (pyJoin "/" ["x"]) = some tpl →
        ((RocketRouter.Mount ((RocketRouter.Mount (emptyRouter (H := Nat)) "/x" 1 ["GET"]).1)
            "/x" 2 ["POST", "FETCH", "DELETE"]).1).routes =
          dictInsert ((RocketRouter.Mount (emptyRouter (H := Nat)) "/x" 1 ["GET"]).1).routes
            (pyJoin "/" ["x"])
            ⟨tpl.TemplatedPathStr, tpl.TemplatedPathVariables,
              registerAll tpl.HttpMethodsMap
                (["POST", "FETCH", "DELETE"].takeWhile
                  (fun m => decide (m ∈ HttpApiMethods.POSSIBLE_METHODS))) 2⟩) ∧
     (RocketRouter.Mount ((RocketRouter.Mount (emptyRouter (H := Nat)) "/x" 1 ["GET"]).1)
          "/x" 2 ["POST", "FETCH", "DELETE"]).2 =
       some (.notSupportedError (nsMsg "FETCH"))) :=
  C10_mount_partial ((RocketRouter.Mount (emptyRouter (H := Nat)) "/x" 1 ["GET"]).1)
    "/x" 2 ["POST", "FETCH", "DELETE"] ["x"] [] "FETCH" (by decide) (by decide) (by decide)

/-- C5: `Mount` is de-duplicating and method-merging.  For a template
`T` whose first mount (with `GET → h1`) succeeds: mounting it a second
time with identical arguments changes nothing and leaves exactly one
route with `GET → h1`; mounting it instead with `POST → h2` leaves
exactly one route carrying both `GET → h1` and `POST → h2`; and any
further mount of the same template text, whatever its handler and
methods, never creates a second entry. -/
theorem C5_mount_merge {H : Type} (T : String) (h1 h2 : H)
    (hok : (RocketRouter.Mount emptyRouter T h1 ["GET"]).2 = none) :
    (RocketRouter.Mount (RocketRouter.Mount emptyRouter T h1 ["GET"]).1 T h1 ["GET"] =
        ((RocketRouter.Mount emptyRouter T h1 ["GET"]).1, none)) ∧
    ((RocketRouter.Mount emptyRouter T h1 ["GET"]).1).routes.length = 1 ∧
    (∀ e ∈ ((RocketRouter.Mount emptyRouter T h1 ["GET"]).1).routes,
        dictGet e.2.HttpMethodsMap "GET" = some h1) ∧
    (((RocketRouter.Mount (RocketRouter.Mount emptyRouter T h1 ["GET"]).1 T h2
          ["POST"]).1).routes.length = 1 ∧
      (RocketRouter.Mount (RocketRouter.Mount emptyRouter T h1 ["GET"]).1 T h2 ["POST"]).2 =
        none ∧
      (∀ e ∈ ((RocketRouter.Mount (RocketRouter.Mount emptyRouter T h1 ["GET"]).1 T h2
            ["POST"]).1).routes,
          dictGet e.2.HttpMethodsMap "GET" = some h1 ∧
          dictGet e.2.HttpMethodsMap "POST" = some h2)) ∧
    (∀ (g : H) (ms' : List String),
        ((RocketRouter.Mount (RocketRouter.Mount emptyRouter T h1 ["GET"]).1 T g
            ms').1).routes.length = 1) := by
  rcases hcm : compileModules (templateModules T) 0 with e | ⟨mods, vars⟩
  · simp only [RocketRouter.Mount, hcm] at hok
    exact Option.noConfusion hok
  · rcases hre : re_compile (pyJoin "/" mods) with _ | rx
    · simp only [RocketRouter.Mount, hcm, hre] at hok
      exact Option.noConfusion hok
    · have hreg1 : HttpApiMethods.Register ([] : List (String × H)) ["GET"] h1 =
          ([("GET", h1)], none) := rfl
      have hr1 : (RocketRouter.Mount emptyRouter T h1 ["GET"]).1 =
          ⟨[(pyJoin "/" mods, ⟨T, vars, [("GET", h1)]⟩)]⟩ := by
        simp only [RocketRouter.Mount, hcm, hre, hreg1, emptyRouter, dictGet, dictInsert]
      have hreg2 : HttpApiMethods.Register [("GET", h1)] ["GET"] h1 =
          ([("GET", h1)], none) := rfl
      have hreg3 : HttpApiMethods.Register [("GET", h1)] ["POST"] h2 =
          ([("GET", h1), ("POST", h2)], none) := rfl
      refine ⟨?_, ?_, ?_, ⟨?_, ?_, ?_⟩, ?_⟩
      · rw [hr1]
        simp only [RocketRouter.Mount, hcm, hre, dictGet, dictInsert, hreg2,
          eq_self_iff_true, if_true]
        rfl
      · rw [hr1]
        rfl
      · rw [hr1]
        intro e he
        rw [List.mem_singleton] at he
        subst he
        rfl
      · rw [hr1]
        simp only [RocketRouter.Mount, hcm, hre, dictGet, dictInsert, hreg3,
          eq_self_iff_true, if_true]
        rfl
      · rw [hr1]
        simp only [RocketRouter.Mount, hcm, hre, dictGet, dictInsert, hreg3,
          eq_self_iff_true, if_true]
        rfl
      · rw [hr1]
        simp only [RocketRouter.Mount, hcm, hre, dictGet, dictInsert, hreg3,
          eq_self_iff_true, if_true]
        intro e he
        rw [List.mem_singleton] at he
        subst he
        exact ⟨rfl, rfl⟩
      · intro g ms'
        rw [hr1]
        simp only [RocketRouter.Mount, hcm, hre, dictGet, dictInsert, Register_eq,
          eq_self_iff_true, if_true, List.length_cons, List.length_nil]

/-- C5, witness: the statement applied to the template `/items` with
handlers `3` and `4`. -/
theorem C5_witness :
    (RocketRouter.Mount (RocketRouter.Mount emptyRouter "/items" 3 ["GET"]).1 "/items" 3
        ["GET"] = ((RocketRouter.Mount emptyRouter "/items" (3 : Nat) ["GET"]).1, none)) ∧
    ((RocketRouter.Mount emptyRouter "/items" (3 : Nat) ["GET"]).1).routes.length = 1 ∧
    (∀ e ∈ ((RocketRouter.Mount emptyRouter "/items" (3 : Nat) ["GET"]).1).routes,
        dictGet e.2.HttpMethodsMap "GET" = some 3) ∧
    (((RocketRouter.Mount (RocketRouter.Mount emptyRouter "/items" 3 ["GET"]).1 "/items" 4
          ["POST"]).1).routes.length = 1 ∧
      (RocketRouter.Mount (RocketRouter.Mount emptyRouter "/items" 3 ["GET"]).1 "/items" 4
          ["POST"]).2 = none ∧
      (∀ e ∈ ((RocketRouter.Mount (RocketRouter.Mount emptyRouter "/items" 3 ["GET"]).1
            "/items" 4 ["POST"]).1).routes,
          dictGet e.2.HttpMethodsMap "GET" = some 3 ∧
          dictGet e.2.HttpMethodsMap "POST" = some 4)) ∧
    (∀ (g : Nat) (ms' : List String),
        ((RocketRouter.Mount (RocketRouter.Mount emptyRouter "/items" 3 ["GET"]).1 "/items" g
            ms').1).routes.length = 1) :=
  C5_mount_merge "/items" 3 4 (by decide)

/-- The route table after mounting a single variable-free,
regex-literal template with supported methods on an empty router. -/
theorem mount_literal_routes {H : Type} (T : String) (h : H) (ms : List String)
    (hvar : ∀ seg ∈ templateModules T, startsWithChar seg '\x7b' = false)
    (hord : ∀ c ∈ (pyJoin "/" (templateModules T)).data, isOrdinaryChar c = true)
    (hms : firstUnsupported ms = none) :
    ((RocketRouter.Mount emptyRouter T h ms).1).routes =
      [(pyJoin "/" (templateModules T), ⟨T, [], registerAll [] ms h⟩)] := by
  have hcm := compileModules_novar (templateModules T) 0 hvar
  have hre := re_compile_lit (pyJoin "/" (templateModules T)) hord
  have hreg : HttpApiMethods.Register ([] : List (String × H)) ms h =
      (registerAll [] ms h, none) := by
    rw [Register_eq, takeWhile_of_firstUnsupported_none hms, hms]
  simp only [RocketRouter.Mount, hcm, hre, hreg, emptyRouter, dictGet, dictInsert]

/-- C2, amended: for a variable-free template T whose segments are
regex-literal, mounted alone with supported methods, `Match(p, m)`
succeeds iff the `/`-joined nonempty segments of T are a *string
prefix* of p and m was registered — not iff p equals T segment-wise:
arbitrary suffixes of the path are accepted, while a leading slash on
the request path prevents matching. -/
theorem C2_amended {H : Type} (T : String) (h : H) (ms : List String) (p m : String)
    (hvar : ∀ seg ∈ templateModules T, startsWithChar seg '\x7b' = false)
    (hord : ∀ c ∈ (pyJoin "/" (templateModules T)).data, isOrdinaryChar c = true)
    (hms : firstUnsupported ms = none) :
    (∃ rsp, (RocketRouter.Match ((RocketRouter.Mount emptyRouter T h ms).1) p m).2 =
        .ok (some rsp, none)) ↔
      ((pyJoin "/" (templateModules T)).data <+: p.data ∧
        (dictGet (registerAll ([] : List (String × H)) ms h) m).isSome = true) := by
  have hroutes := mount_literal_routes T h ms hvar hord hms
  have hre := re_compile_lit (pyJoin "/" (templateModules T)) hord
  by_cases hpre : (pyJoin "/" (templateModules T)).data <+: p.data
  · have hm : reMatchB (pyJoin "/" (templateModules T)) p = true :=
      (reMatchB_litWord p hre).mpr hpre
    have hcand :
        RocketRouter.candidateTemplates ((RocketRouter.Mount emptyRouter T h ms).1) p =
          [⟨T, [], registerAll [] ms h⟩] := by
      unfold RocketRouter.candidateTemplates
      rw [hroutes]
      simp [List.filter, hm]
    rcases hget : dictGet (registerAll ([] : List (String × H)) ms h) m with _ | f
    · have hres : (RocketRouter.Match ((RocketRouter.Mount emptyRouter T h ms).1) p m).2 =
          .ok (none, some ⟨"HTTP method is not allowed on this route",
            HttpStatus.METHOD_NOT_ALLOWED⟩) := by
        simp only [RocketRouter.Match, hcand, RocketRouter.matchVariables, hget]
      rw [hres]
      constructor
      · rintro ⟨rsp, hr⟩
        simp at hr
      · rintro ⟨-, hs⟩
        simp at hs
    · have hres : (RocketRouter.Match ((RocketRouter.Mount emptyRouter T h ms).1) p m).2 =
          .ok (some ⟨[], f⟩, none) := by
        simp only [RocketRouter.Match, hcand, RocketRouter.matchVariables, hget]
      rw [hres]
      constructor
      · intro _
        exact ⟨hpre, rfl⟩
      · intro _
        exact ⟨⟨[], f⟩, rfl⟩
  · have hm : reMatchB (pyJoin "/" (templateModules T)) p = false := by
      rcases hb : reMatchB (pyJoin "/" (templateModules T)) p with _ | _
      · rfl
      · exact absurd ((reMatchB_litWord p hre).mp hb) hpre
    have hcand :
        RocketRouter.candidateTemplates ((RocketRouter.Mount emptyRouter T h ms).1) p =
          [] := by
      unfold RocketRouter.candidateTemplates
      rw [hroutes]
      simp [List.filter, hm]
    have hres : (RocketRouter.Match ((RocketRouter.Mount emptyRouter T h ms).1) p m).2 =
        .ok (none, some ⟨"no matching routes could be found", HttpStatus.NOT_FOUND⟩) := by
      simp only [RocketRouter.Match, hcand]
    rw [hres]
    constructor
    · rintro ⟨rsp, hr⟩
      simp at hr
    · rintro ⟨hp, -⟩
      exact absurd hp hpre

/-- C2, witness: the amended statement applied to the template `/items`
and the request path `items/extra` with method GET. -/
theorem C2_witness :
    (∃ rsp, (RocketRouter.Match ((RocketRouter.Mount emptyRouter "/items" (0 : Nat)
          ["GET"]).1) "items/extra" "GET").2 = .ok (some rsp, none)) ↔
      ((pyJoin "/" (templateModules "/items")).data <+: "items/extra".data ∧
        (dictGet (registerAll ([] : List (String × Nat)) ["GET"] 0) "GET").isSome = true) :=
  C2_amended "/items" 0 ["GET"] "items/extra" "GET" (by decide) (by decide) (by decide)

end Paperwrite
